import Mathlib

set_option maxHeartbeats 1000000

/-!
Shallow embedding of the cursor-cloud-sync engine
(src/cursor_sync.py and src/auto_sync.py).

The live filesystem is modelled as a flat association list from an
absolute path (one slot per configuration location or rollback copy) to
the node stored there.  A directory node is modelled by the flat list of
the regular files it contains, as (relative path components, content)
pairs: exactly the view that the zip-based snapshot code observes through
os.walk, and the view that zipfile.extractall reconstructs.
-/

/-- A filesystem node: a single file with string content, or a directory
given by the flat list of its contained files. -/
inductive FsNode where
  | file : String → FsNode
  | dir : List (List String × String) → FsNode
deriving DecidableEq, Repr

/-- The live filesystem: absolute path ↦ node. -/
abbrev Fs := List (String × FsNode)

/-- Lookup of an absolute path (os.path.exists / isfile / isdir combined). -/
def fsFind : Fs → String → Option FsNode
  | [], _ => none
  | (q, n) :: rest, p => if q = p then some n else fsFind rest p

/-- Store a node at an absolute path, replacing what was there
(shutil.copy2 / shutil.copytree onto a fresh destination). -/
def fsSet (fs : Fs) (p : String) (n : FsNode) : Fs :=
  (p, n) :: fs.filter (fun e => !(e.1 == p))

/-- One archive entry: internal path components and file content. -/
abbrev ArchiveEntry := List String × String

/-- os.path.basename on a slash-separated path string: the characters
after the last slash (empty when the path ends in a slash). -/
def basename (p : String) : String :=
  String.mk ((p.data.reverse.takeWhile (fun c => c != '/')).reverse)

/-- cursor_sync.py lines 176-199, CursorSyncManager.create_backup_archive:
for each registered (name, path) location, a File location contributes the
single entry name/basename(path), a Directory location contributes one
entry name/relpath per contained file (os.walk), a Missing location is
skipped, and a single metadata.json entry is appended at the end. -/
def create_backup_archive (locs : List (String × String)) (fs : Fs) (meta : String) :
    List ArchiveEntry :=
  (locs.flatMap (fun lp =>
    match fsFind fs lp.2 with
    | none => []
    | some (FsNode.file c) => [([lp.1, basename lp.2], c)]
    | some (FsNode.dir files) => files.map (fun e => (lp.1 :: e.1, e.2))))
  ++ [(["metadata.json"], meta)]

/-- os.path.exists(temp_dir/name) after extractall: some entry's first
component is the location name. -/
def entryExists (entries : List ArchiveEntry) (name : String) : Bool :=
  entries.any (fun e => e.1.head? == some name)

/-- os.path.isfile(temp_dir/name) after extractall: the archive holds an
entry whose internal path is exactly the bare name; yields its content. -/
def entryIsFile (entries : List ArchiveEntry) (name : String) : Option String :=
  (entries.find? (fun e => e.1 == [name])).map (fun e => e.2)

/-- The directory tree extracted at temp_dir/name: every entry whose path
starts with the name, re-rooted below it. -/
def entryDirFiles (entries : List ArchiveEntry) (name : String) :
    List (List String × String) :=
  entries.filterMap (fun e =>
    match e.1 with
    | n :: r :: rest => if n = name then some ((r :: rest, e.2) : List String × String) else none
    | _ => none)

/-- The rollback destination f-string from cursor_sync.py line 324:
config_path plus ".backup_" plus int(time.time()). -/
def rollbackPath (path : String) (ts : Nat) : String :=
  path ++ ".backup_" ++ toString ts

/-- Outcome of processing one location inside the restore loop: the
filesystem at return or at the moment an exception was raised, whether the
location was restored (the "Restored: name" print), and the uncaught
exception if one was raised. -/
structure LocOutcome where
  fs : Fs
  restored : Bool
  err : Option String
deriving DecidableEq, Repr

/-- cursor_sync.py lines 330-339, the "Restore settings" half of the loop
body: if the extracted entry is a file, copy2 it over the destination
(IsADirectoryError if the destination is a directory); otherwise it is a
directory, so rmtree the destination if it exists (NotADirectoryError if
the destination is a regular file) and copytree the extracted tree in. -/
def restoreStep (entries : List ArchiveEntry) (name path : String) (fs1 : Fs) :
    LocOutcome :=
  match entryIsFile entries name with
  | some c =>
    match fsFind fs1 path with
    | some (FsNode.dir _) => ⟨fs1, false, some "IsADirectoryError"⟩
    | _ => ⟨fsSet fs1 path (FsNode.file c), true, none⟩
  | none =>
    match fsFind fs1 path with
    | some (FsNode.file _) => ⟨fs1, false, some "NotADirectoryError"⟩
    | _ => ⟨fsSet fs1 path (FsNode.dir (entryDirFiles entries name)), true, none⟩

/-- cursor_sync.py lines 318-339, one iteration of the restore loop: if the
location name is present in the extracted archive, first copy the live
node (when one exists) to the timestamped rollback path — copy2 for a
file (failing if a directory sits at the rollback path), copytree for a
directory (failing if anything sits at the rollback path) — and then run
the destructive restore step.  A location absent from the archive is left
completely untouched. -/
def restoreLoc (ts : Nat) (entries : List ArchiveEntry) (name path : String) (fs : Fs) :
    LocOutcome :=
  if entryExists entries name then
    match fsFind fs path with
    | some (FsNode.file c) =>
      match fsFind fs (rollbackPath path ts) with
      | some (FsNode.dir _) => ⟨fs, false, some "IsADirectoryError"⟩
      | _ => restoreStep entries name path (fsSet fs (rollbackPath path ts) (FsNode.file c))
    | some (FsNode.dir files) =>
      match fsFind fs (rollbackPath path ts) with
      | some _ => ⟨fs, false, some "FileExistsError"⟩
      | none => restoreStep entries name path (fsSet fs (rollbackPath path ts) (FsNode.dir files))
    | none => restoreStep entries name path fs
  else ⟨fs, false, none⟩

/-- Result of a whole restore run: final filesystem, the names printed as
restored, and the exception that aborted the loop, if any. -/
structure RestoreResult where
  fs : Fs
  restored : List String
  error : Option String
deriving DecidableEq, Repr

/-- The restore loop over all registered locations.  There is no
try/except inside the loop, so the first exception aborts it: locations
after the failing one are never attempted, and nothing already restored
is rolled back. -/
def restoreAll (ts : Nat) (entries : List ArchiveEntry) :
    List (String × String) → Fs → RestoreResult
  | [], fs => ⟨fs, [], none⟩
  | (name, path) :: rest, fs =>
    let r := restoreLoc ts entries name path fs
    match r.err with
    | some e => ⟨r.fs, [], some e⟩
    | none =>
      let res := restoreAll ts entries rest r.fs
      ⟨res.fs, (if r.restored then [name] else []) ++ res.restored, res.error⟩

/-- cursor_sync.py lines 308-339, CursorSyncManager.restore_from_backup:
a missing or unopenable backup file raises before any mutation; otherwise
the extracted entries are applied to every registered location. -/
def restore_from_backup (ts : Nat) (backup : Option (List ArchiveEntry))
    (locs : List (String × String)) (fs : Fs) : RestoreResult :=
  match backup with
  | none => ⟨fs, [], some "Backup file does not exist"⟩
  | some entries => restoreAll ts entries locs fs

/-- The contained-file list of a node: empty for a regular file. -/
def fsNodeFiles : FsNode → List (List String × String)
  | FsNode.file _ => []
  | FsNode.dir files => files

/-!  Retention pruner (auto_sync.py, AutoSyncManager._cleanup_old_backups). -/

/-- One remote-side backup descriptor as returned by the Drive listing:
opaque id, display name, creation time.  The listing the code consumes is
filtered to names containing "cursor_backup" and ordered by createdTime
descending (the query on auto_sync.py lines 82-86). -/
structure BackupRecord where
  id : Nat
  name : String
  createdTime : Nat
deriving DecidableEq, Repr

/-- auto_sync.py lines 88-95 with every delete succeeding: if the listing
exceeds max_backups, the records beyond index max_backups - 1 (the
oldest, since the listing is newest-first) are deleted.  Returns
(records remaining in the folder, records deleted). -/
def cleanup_old_backups (files : List BackupRecord) (max_backups : Nat) :
    List BackupRecord × List BackupRecord :=
  if files.length > max_backups then (files.take max_backups, files.drop max_backups)
  else (files, [])

/-- The delete loop of auto_sync.py lines 92-95, with a fault model:
fails f.id says whether the remote delete of that record raises.  There is
no per-delete try/except, so the first failing delete aborts the loop.
Returns (records actually deleted, whether an exception was raised into
the surrounding try). -/
def deleteLoop (fails : Nat → Bool) : List BackupRecord → List BackupRecord × Bool
  | [] => ([], false)
  | f :: rest =>
    if fails f.id then ([], true)
    else
      let r := deleteLoop fails rest
      (f :: r.1, r.2)

/-- auto_sync.py lines 73-98, AutoSyncManager._cleanup_old_backups with the
fault model: the whole pass sits in one try/except, so a raised delete is
caught and logged at the pass level (second component true) and the pass
itself never raises. -/
def cleanup_old_backups_f (files : List BackupRecord) (max_backups : Nat)
    (fails : Nat → Bool) : List BackupRecord × Bool :=
  if files.length > max_backups then deleteLoop fails (files.drop max_backups)
  else ([], false)

/-!  Path registry (cursor_sync.py, _get_cursor_config_paths and
_get_default_cursor_paths). -/

/-- os.path.expanduser: a leading tilde is replaced by the home
directory. -/
def expanduser (home p : String) : String :=
  match p.data with
  | '~' :: rest => String.mk (home.data ++ rest)
  | _ => p

/-- cursor_sync.py lines 114-143, _get_default_cursor_paths: the five
well-known locations per platform, or an exception for an unsupported
platform identifier. -/
def get_default_cursor_paths (system home : String) :
    Except String (List (String × String)) :=
  if system = "darwin" then
    Except.ok
      [("settings", expanduser home "~/Library/Application Support/Cursor/User/settings.json"),
       ("keybindings", expanduser home "~/Library/Application Support/Cursor/User/keybindings.json"),
       ("snippets", expanduser home "~/Library/Application Support/Cursor/User/snippets/"),
       ("extensions", expanduser home "~/Library/Application Support/Cursor/User/extensions/"),
       ("workspaceStorage", expanduser home "~/Library/Application Support/Cursor/User/workspaceStorage/")]
  else if system = "linux" then
    Except.ok
      [("settings", expanduser home "~/.config/Cursor/User/settings.json"),
       ("keybindings", expanduser home "~/.config/Cursor/User/keybindings.json"),
       ("snippets", expanduser home "~/.config/Cursor/User/snippets/"),
       ("extensions", expanduser home "~/.config/Cursor/User/extensions/"),
       ("workspaceStorage", expanduser home "~/.config/Cursor/User/workspaceStorage/")]
  else if system = "windows" then
    Except.ok
      [("settings", expanduser home "~/AppData/Roaming/Cursor/User/settings.json"),
       ("keybindings", expanduser home "~/AppData/Roaming/Cursor/User/keybindings.json"),
       ("snippets", expanduser home "~/AppData/Roaming/Cursor/User/snippets/"),
       ("extensions", expanduser home "~/AppData/Roaming/Cursor/User/extensions/"),
       ("workspaceStorage", expanduser home "~/AppData/Roaming/Cursor/User/workspaceStorage/")]
  else Except.error ("Unsupported operating system: " ++ system)

/-- The cursor_paths object of config.json: the custom_enabled flag and
the supplied name ↦ path pairs. -/
structure CursorPathsConfig where
  custom_enabled : Bool
  paths : List (String × String)
deriving DecidableEq, Repr

/-- Dictionary lookup (dict.get) on an association list. -/
def lookupPath (l : List (String × String)) (k : String) : Option String :=
  (l.find? (fun e => e.1 == k)).map (fun e => e.2)

/-- The five well-known location names, in the order the code iterates
them (cursor_sync.py line 47). -/
def pathKeys : List String :=
  ["settings", "keybindings", "snippets", "extensions", "workspaceStorage"]

/-- The custom_paths dictionary built on cursor_sync.py lines 46-50: for
each well-known key, if the override map supplies a truthy (non-empty)
path, that key maps to the expanduser of it; other keys are absent. -/
def customPathsOver (paths : List (String × String)) (home : String)
    (keys : List String) : List (String × String) :=
  keys.filterMap (fun k =>
    match lookupPath paths k with
    | some p => if p = "" then none else some (k, expanduser home p)
    | none => none)

def customPaths (cfg : CursorPathsConfig) (home : String) : List (String × String) :=
  customPathsOver cfg.paths home pathKeys

/-- cursor_sync.py lines 35-58, _get_cursor_config_paths: when a config
with custom_enabled is present and supplies at least one of the five
names, exactly the supplied names are returned; otherwise the platform
defaults are returned whole. -/
def get_cursor_config_paths (config : Option CursorPathsConfig) (system home : String) :
    Except String (List (String × String)) :=
  match config with
  | some cfg =>
    if cfg.custom_enabled then
      if customPaths cfg home = [] then get_default_cursor_paths system home
      else Except.ok (customPaths cfg home)
    else get_default_cursor_paths system home
  | none => get_default_cursor_paths system home

/-!  Sync cycle (cursor_sync.py sync_up; auto_sync.py sync_once and
start_auto_sync).  Remote effects are parameters: the upload outcome is
an Except value, and disk is the set of temporary files present. -/

/-- cursor_sync.py lines 341-356, CursorSyncManager.sync_up: the builder
leaves the temporary archive at backupPath on disk; then the upload runs;
only on upload success does os.unlink remove the temporary file — an
upload exception propagates past the unlink.  Returns the outcome and the
temp files present on disk afterwards. -/
def sync_up (backupPath : String) (uploadResult : Except String String)
    (disk : List String) : Except String String × List String :=
  let disk1 := backupPath :: disk
  match uploadResult with
  | Except.error e => (Except.error e, disk1)
  | Except.ok fileId => (Except.ok fileId, disk1.erase backupPath)

/-- auto_sync.py lines 100-135, AutoSyncManager.sync_once: missing
credentials log and return false; any exception from authentication or
the sync is caught by the function's own try/except, logged, and turned
into a false return — sync_once never raises.  Returns (success flag,
logged message). -/
def sync_once (credsExist : Bool) (auth : Except String Unit)
    (upload : Except String String) : Bool × String :=
  if !credsExist then (false, "Credentials file does not exist")
  else
    match auth with
    | Except.error e => (false, "Sync failed: " ++ e)
    | Except.ok _ =>
      match upload with
      | Except.error e => (false, "Sync failed: " ++ e)
      | Except.ok _ => (true, "Sync completed successfully")

/-- What one pass of the recurring loop body observes: a sync_once return
value, an exception escaping into the loop body, or a KeyboardInterrupt. -/
inductive CycleEvent where
  | result : Bool → CycleEvent
  | raised : String → CycleEvent
  | interrupt : CycleEvent
deriving DecidableEq, Repr

/-- State of the recurring loop after consuming a finite schedule of
events: how many iterations completed (each followed by the interval
sleep), whether the loop has exited, and the error messages logged by the
catch-all handler. -/
structure LoopState where
  iterations : Nat
  stopped : Bool
  errlog : List String
deriving DecidableEq, Repr

/-- auto_sync.py lines 147-156, the while True loop: a normal or failed
sync_once return just sleeps and continues; an exception is caught by the
except Exception arm, logged, and the loop sleeps and continues; only
KeyboardInterrupt breaks the loop. -/
def runLoop : List CycleEvent → LoopState
  | [] => ⟨0, false, []⟩
  | CycleEvent.interrupt :: _ => ⟨0, true, []⟩
  | CycleEvent.result _ :: rest =>
    let s := runLoop rest
    ⟨s.iterations + 1, s.stopped, s.errlog⟩
  | CycleEvent.raised m :: rest =>
    let s := runLoop rest
    ⟨s.iterations + 1, s.stopped, ("Automatic sync error occurred: " ++ m) :: s.errlog⟩

/-- auto_sync.py lines 137-156, AutoSyncManager.start_auto_sync: with
auto_sync disabled the scheduler returns immediately without looping;
otherwise it runs the recurring loop. -/
def start_auto_sync (enabled : Bool) (events : List CycleEvent) : LoopState :=
  if enabled then runLoop events else ⟨0, true, []⟩

/-!  Helper lemmas about the filesystem model and the restore loop. -/

/-- The rollback destination is always distinct from the live path. -/
theorem rollbackPath_ne (p : String) (ts : Nat) : rollbackPath p ts ≠ p := by
  intro h
  have h2 := congrArg String.length h
  have h3 : (".backup_" : String).length = 8 := by decide
  simp [rollbackPath, String.length_append, h3] at h2
  omega

theorem fsFind_filter_ne (fs : Fs) (p q : String) (hq : q ≠ p) :
    fsFind (fs.filter (fun e => !(e.1 == p))) q = fsFind fs q := by
  have hpq : ¬ (p = q) := fun hh => hq hh.symm
  induction fs with
  | nil => rfl
  | cons e rest ih =>
    by_cases h : e.1 = p
    · simp [List.filter_cons, h, fsFind, hpq, ih]
    · simp [List.filter_cons, h, fsFind, ih]

theorem fsFind_set_self (fs : Fs) (p : String) (n : FsNode) :
    fsFind (fsSet fs p n) p = some n := by
  simp [fsSet, fsFind]

theorem fsFind_set_ne (fs : Fs) (p : String) (n : FsNode) (q : String) (hq : q ≠ p) :
    fsFind (fsSet fs p n) q = fsFind fs q := by
  have hpq : ¬ (p = q) := fun hh => hq hh.symm
  simp [fsSet, fsFind, hpq]
  exact fsFind_filter_ne fs p q hq

/-- The restore step for one location writes only at that location's
live path. -/
theorem fsFind_restoreStep_ne (E : List ArchiveEntry) (n p : String) (fs1 : Fs)
    (q : String) (hq : q ≠ p) :
    fsFind (restoreStep E n p fs1).fs q = fsFind fs1 q := by
  unfold restoreStep
  cases entryIsFile E n with
  | some c =>
    cases hf : fsFind fs1 p with
    | none => simp [hf, fsFind_set_ne _ _ _ _ hq]
    | some node => cases node <;> simp [hf, fsFind_set_ne _ _ _ _ hq]
  | none =>
    cases hf : fsFind fs1 p with
    | none => simp [hf, fsFind_set_ne _ _ _ _ hq]
    | some node => cases node <;> simp [hf, fsFind_set_ne _ _ _ _ hq]

/-- Processing one location touches only its live path and its rollback
path, and touches nothing at all when its name is absent from the
archive. -/
theorem fsFind_restoreLoc (ts : Nat) (E : List ArchiveEntry) (n p : String) (fs : Fs)
    (q : String) (hq : entryExists E n = true → q ≠ p ∧ q ≠ rollbackPath p ts) :
    fsFind (restoreLoc ts E n p fs).fs q = fsFind fs q := by
  by_cases hex : entryExists E n
  · obtain ⟨h1, h2⟩ := hq hex
    unfold restoreLoc
    cases hf : fsFind fs p with
    | none => simp [hex, hf, fsFind_restoreStep_ne _ _ _ _ _ h1]
    | some node =>
      cases node with
      | file c =>
        cases hb : fsFind fs (rollbackPath p ts) with
        | none =>
          simp [hex, hf, hb, fsFind_restoreStep_ne _ _ _ _ _ h1, fsFind_set_ne _ _ _ _ h2]
        | some nb =>
          cases nb <;>
            simp [hex, hf, hb, fsFind_restoreStep_ne _ _ _ _ _ h1, fsFind_set_ne _ _ _ _ h2]
      | dir files =>
        cases hb : fsFind fs (rollbackPath p ts) with
        | none =>
          simp [hex, hf, hb, fsFind_restoreStep_ne _ _ _ _ _ h1, fsFind_set_ne _ _ _ _ h2]
        | some nb => simp [hex, hf, hb]
  · simp [restoreLoc, hex]

/-- The whole restore loop (including an aborted one) leaves every path
alone that is neither the live path nor the rollback path of a location
whose name occurs in the archive. -/
theorem fsFind_restoreAll (ts : Nat) (E : List ArchiveEntry)
    (locs : List (String × String)) (fs : Fs) (q : String)
    (h : ∀ n p, (n, p) ∈ locs → entryExists E n = true → q ≠ p ∧ q ≠ rollbackPath p ts) :
    fsFind (restoreAll ts E locs fs).fs q = fsFind fs q := by
  induction locs generalizing fs with
  | nil => rfl
  | cons e rest ih =>
    obtain ⟨n, p⟩ := e
    have hhead : entryExists E n = true → q ≠ p ∧ q ≠ rollbackPath p ts :=
      h n p (List.mem_cons_self _ _)
    have htail : ∀ n' p', (n', p') ∈ rest → entryExists E n' = true →
        q ≠ p' ∧ q ≠ rollbackPath p' ts :=
      fun n' p' hm => h n' p' (List.mem_cons_of_mem _ hm)
    simp only [restoreAll]
    cases herr : (restoreLoc ts E n p fs).err with
    | some e' => simp [herr, fsFind_restoreLoc _ _ _ _ _ _ hhead]
    | none =>
      simp only [herr]
      rw [ih _ htail, fsFind_restoreLoc _ _ _ _ _ _ hhead]

/-- A restore prefix that raised no exception composes: running it and
then the remaining locations is running the concatenation. -/
theorem restoreAll_append_fs (ts : Nat) (E : List ArchiveEntry)
    (l1 l2 : List (String × String)) (fs : Fs)
    (h : (restoreAll ts E l1 fs).error = none) :
    (restoreAll ts E (l1 ++ l2) fs).fs =
      (restoreAll ts E l2 (restoreAll ts E l1 fs).fs).fs := by
  induction l1 generalizing fs with
  | nil => rfl
  | cons e rest ih =>
    obtain ⟨n, p⟩ := e
    simp only [restoreAll, List.cons_append] at h ⊢
    cases herr : (restoreLoc ts E n p fs).err with
    | some e' => simp [herr] at h
    | none =>
      simp only [herr] at h ⊢
      exact ih _ h

/-- When a location is in the archive, its live node exists and the
rollback path is free, processing the location places the pre-restore node
at the rollback path — whether or not the destructive half then raises. -/
theorem restoreLoc_rollback (ts : Nat) (E : List ArchiveEntry) (n p : String)
    (fs : Fs) (node : FsNode)
    (hex : entryExists E n = true)
    (hfind : fsFind fs p = some node)
    (hbp : fsFind fs (rollbackPath p ts) = none) :
    fsFind (restoreLoc ts E n p fs).fs (rollbackPath p ts) = some node := by
  have hne : rollbackPath p ts ≠ p := rollbackPath_ne p ts
  unfold restoreLoc
  cases node with
  | file c =>
    simp only [hex, hfind, hbp, if_true]
    rw [fsFind_restoreStep_ne _ _ _ _ _ hne, fsFind_set_self]
  | dir files =>
    simp only [hex, hfind, hbp, if_true]
    rw [fsFind_restoreStep_ne _ _ _ _ _ hne, fsFind_set_self]

/-! Claim theorems. -/

/-- C2: for every folder listing (newest-first, as the Drive query
returns it) and every maxBackups ≥ 1, one failure-free pruning pass
leaves exactly min(maxBackups, originalCount) backups — the newest-first
prefix of the listing — and every deleted record is at least as old as
every remaining one. -/
theorem c2_retention (files : List BackupRecord) (maxB : Nat)
    (hsorted : files.Pairwise (fun a b => b.createdTime ≤ a.createdTime))
    (hmax : 1 ≤ maxB) :
    (cleanup_old_backups files maxB).1.length = min maxB files.length ∧
    (cleanup_old_backups files maxB).1 = files.take maxB ∧
    ∀ d ∈ (cleanup_old_backups files maxB).2, ∀ k ∈ (cleanup_old_backups files maxB).1,
      d.createdTime ≤ k.createdTime := by
  unfold cleanup_old_backups
  split
  · refine ⟨List.length_take maxB files, rfl, ?_⟩
    intro d hd k hk
    have hp : (files.take maxB ++ files.drop maxB).Pairwise
        (fun a b => b.createdTime ≤ a.createdTime) := by
      rw [List.take_append_drop]; exact hsorted
    exact (List.pairwise_append.mp hp).2.2 k hk d hd
  · rename_i hlen
    have hle : files.length ≤ maxB := Nat.le_of_not_lt hlen
    refine ⟨?_, (List.take_of_length_le hle).symm, ?_⟩
    · rw [Nat.min_eq_right hle]
    · intro d hd
      simp at hd

/-- Witness for C2 at a concrete three-element listing with maxBackups 2. -/
theorem c2_retention_w :
    [BackupRecord.mk 1 "cursor_backup_3" 30, BackupRecord.mk 2 "cursor_backup_2" 20,
        BackupRecord.mk 3 "cursor_backup_1" 10].Pairwise
      (fun a b => b.createdTime ≤ a.createdTime) ∧
    (cleanup_old_backups
        [BackupRecord.mk 1 "cursor_backup_3" 30, BackupRecord.mk 2 "cursor_backup_2" 20,
         BackupRecord.mk 3 "cursor_backup_1" 10] 2).1.length = min 2 3 := by
  refine ⟨by decide, ?_⟩
  exact (c2_retention _ 2 (by decide) (by decide)).1

/-- C10: a registered location whose name is not a top-level entry of the
extracted archive is left entirely alone by restore_from_backup: its live
path is unchanged and no rollback copy appears at its rollback path
(assuming the other locations' live and rollback paths do not collide
with this location's). -/
theorem c10_untouched_when_absent (ts : Nat) (E : List ArchiveEntry)
    (locs : List (String × String)) (fs : Fs) (name path : String)
    (hmem : (name, path) ∈ locs)
    (habsent : entryExists E name = false)
    (hdisj : ∀ n' p', (n', p') ∈ locs → entryExists E n' = true →
        p' ≠ path ∧ rollbackPath p' ts ≠ path ∧
        p' ≠ rollbackPath path ts ∧ rollbackPath p' ts ≠ rollbackPath path ts) :
    fsFind (restore_from_backup ts (some E) locs fs).fs path = fsFind fs path ∧
    fsFind (restore_from_backup ts (some E) locs fs).fs (rollbackPath path ts) =
      fsFind fs (rollbackPath path ts) := by
  constructor
  · exact fsFind_restoreAll ts E locs fs path
      (fun n' p' hm hex =>
        ⟨((hdisj n' p' hm hex).1).symm, ((hdisj n' p' hm hex).2.1).symm⟩)
  · exact fsFind_restoreAll ts E locs fs (rollbackPath path ts)
      (fun n' p' hm hex =>
        ⟨((hdisj n' p' hm hex).2.2.1).symm, ((hdisj n' p' hm hex).2.2.2).symm⟩)

/-- Witness for C10: the settings location is live but absent from the
archive, and the restore (which does restore the snippets location)
leaves both its live path and its rollback path untouched. -/
theorem c10_untouched_when_absent_w :
    fsFind (restore_from_backup 7 (some [(["p", "f"], "c")])
        [("s", "/s"), ("p", "/p")] [("/s", FsNode.file "a")]).fs "/s" =
      fsFind [("/s", FsNode.file "a")] "/s" ∧
    fsFind (restore_from_backup 7 (some [(["p", "f"], "c")])
        [("s", "/s"), ("p", "/p")] [("/s", FsNode.file "a")]).fs (rollbackPath "/s" 7) =
      fsFind [("/s", FsNode.file "a")] (rollbackPath "/s" 7) := by
  refine c10_untouched_when_absent 7 [(["p", "f"], "c")] [("s", "/s"), ("p", "/p")]
    [("/s", FsNode.file "a")] "s" "/s" (by decide) (by decide) ?_
  intro n' p' hm hex
  simp only [List.mem_cons, List.not_mem_nil, or_false, Prod.mk.injEq] at hm
  rcases hm with ⟨h1, h2⟩ | ⟨h1, h2⟩
  · subst h1; subst h2
    exact absurd hex (by decide)
  · subst h1; subst h2
    exact ⟨by decide, by decide, by decide, by decide⟩

/-- C3 (amended): for a location that is present as a top-level entry of
the archive, whose live path holds a node when the restore reaches it and
whose rollback path is free, the restore leaves a rollback copy holding
the pre-restore node at the distinct sibling path path.backup_ts; the copy
is made before the destructive step (it survives even when that step
raises) and survives the rest of the run, provided the other locations'
live and rollback paths do not collide with it. -/
theorem c3_rollback (ts : Nat) (E : List ArchiveEntry)
    (l1 l2 : List (String × String)) (name path : String) (node : FsNode) (fs : Fs)
    (h1 : (restoreAll ts E l1 fs).error = none)
    (h2 : entryExists E name = true)
    (h3 : fsFind fs path = some node)
    (h4 : fsFind fs (rollbackPath path ts) = none)
    (h5 : ∀ n' p', (n', p') ∈ l1 → entryExists E n' = true →
        path ≠ p' ∧ path ≠ rollbackPath p' ts ∧
        rollbackPath path ts ≠ p' ∧ rollbackPath path ts ≠ rollbackPath p' ts)
    (h6 : ∀ n' p', (n', p') ∈ l2 → entryExists E n' = true →
        rollbackPath path ts ≠ p' ∧ rollbackPath path ts ≠ rollbackPath p' ts) :
    rollbackPath path ts ≠ path ∧
    fsFind (restore_from_backup ts (some E) (l1 ++ (name, path) :: l2) fs).fs
        (rollbackPath path ts) = some node := by
  refine ⟨rollbackPath_ne path ts, ?_⟩
  have hfs1p : fsFind (restoreAll ts E l1 fs).fs path = some node := by
    rw [fsFind_restoreAll ts E l1 fs path
      (fun n' p' hm hex => ⟨(h5 n' p' hm hex).1, (h5 n' p' hm hex).2.1⟩)]
    exact h3
  have hfs1b : fsFind (restoreAll ts E l1 fs).fs (rollbackPath path ts) = none := by
    rw [fsFind_restoreAll ts E l1 fs (rollbackPath path ts)
      (fun n' p' hm hex => ⟨(h5 n' p' hm hex).2.2.1, (h5 n' p' hm hex).2.2.2⟩)]
    exact h4
  show fsFind (restoreAll ts E (l1 ++ (name, path) :: l2) fs).fs
      (rollbackPath path ts) = some node
  rw [restoreAll_append_fs ts E l1 ((name, path) :: l2) fs h1]
  simp only [restoreAll]
  cases herr : (restoreLoc ts E name path (restoreAll ts E l1 fs).fs).err with
  | some e' =>
    simp only [herr]
    exact restoreLoc_rollback ts E name path _ node h2 hfs1p hfs1b
  | none =>
    simp only [herr]
    rw [fsFind_restoreAll ts E l2 _ (rollbackPath path ts) (fun n' p' hm hex => h6 n' p' hm hex)]
    exact restoreLoc_rollback ts E name path _ node h2 hfs1p hfs1b

/-- Witness for C3: one directory location, present in the archive and
live, gets its rollback copy. -/
theorem c3_rollback_w :
    rollbackPath "/d" 7 ≠ "/d" ∧
    fsFind (restore_from_backup 7 (some [(["s", "f"], "c")])
        ([] ++ ("s", "/d") :: []) [("/d", FsNode.dir [(["g"], "o")])]).fs
        (rollbackPath "/d" 7) = some (FsNode.dir [(["g"], "o")]) := by
  refine c3_rollback 7 [(["s", "f"], "c")] [] [] "s" "/d"
    (FsNode.dir [(["g"], "o")]) [("/d", FsNode.dir [(["g"], "o")])]
    (by decide) (by decide) (by decide) (by decide) ?_ ?_ <;>
    intro n' p' hm hex <;> simp at hm

/-- Counterexample to C3 as stated: the settings location exists live
but its name is not in the archive, so the restore is a complete no-op —
in particular no rollback copy of the live node is created anywhere
(the final filesystem is exactly the input one, with no new path). -/
theorem c3_counterexample :
    restore_from_backup 5 (some [(["p", "x"], "c"), (["metadata.json"], "m")])
        [("s", "/s")] [("/s", FsNode.file "a")] =
      RestoreResult.mk [("/s", FsNode.file "a")] [] none := by
  decide

/-- C1 (code bug): round-tripping a File location fails.  The builder
stores the file as name/basename, so extraction puts a directory at
temp_dir/name; the restore's isfile branch is dead code.  Restoring the
fresh archive onto a filesystem where the live file is gone materializes
a directory named s.json containing s.json instead of the file, and
restoring onto the original filesystem raises NotADirectoryError from
shutil.rmtree on the live regular file. -/
theorem c1_file_location_bug :
    (restore_from_backup 7
        (some (create_backup_archive [("s", "/h/s.json")]
          [("/h/s.json", FsNode.file "a")] "m"))
        [("s", "/h/s.json")] []).fs =
      [("/h/s.json", FsNode.dir [(["s.json"], "a")])] ∧
    (restore_from_backup 7
        (some (create_backup_archive [("s", "/h/s.json")]
          [("/h/s.json", FsNode.file "a")] "m"))
        [("s", "/h/s.json")]
        [("/h/s.json", FsNode.file "a")]).error = some "NotADirectoryError" := by
  exact ⟨by decide, by decide⟩

/-- C4 (amended): the restore loop has no per-location exception
handling, so the first failing location aborts the run: the result over
l1 concatenated with more locations equals the result over l1 alone
(later locations are never attempted, and nothing already restored is
rolled back — the filesystem is exactly the abort-time one); only a
missing/unopenable backup file fails the restore before any mutation. -/
theorem c4_abort_semantics :
    (∀ (ts : Nat) (E : List ArchiveEntry) (l1 l2 : List (String × String))
        (fs : Fs) (e : String),
      (restoreAll ts E l1 fs).error = some e →
        restoreAll ts E (l1 ++ l2) fs = restoreAll ts E l1 fs) ∧
    (∀ (ts : Nat) (locs : List (String × String)) (fs : Fs),
      restore_from_backup ts none locs fs =
        RestoreResult.mk fs [] (some "Backup file does not exist")) := by
  constructor
  · intro ts E l1 l2 fs e h
    induction l1 generalizing fs with
    | nil => simp [restoreAll] at h
    | cons x rest ih =>
      obtain ⟨n, p⟩ := x
      simp only [restoreAll, List.cons_append] at h ⊢
      cases herr : (restoreLoc ts E n p fs).err with
      | some e' => simp [herr]
      | none =>
        simp only [herr] at h ⊢
        rw [List.append_eq, ih _ h]
  · intro ts locs fs
    rfl

/-- Witness for C4 (amended): a concrete two-location restore whose
first location raises; appending the second location changes nothing. -/
theorem c4_abort_semantics_w :
    restoreAll 7 [(["s", "x", "y"], "c1"), (["p", "f"], "c2")]
        ([("s", "/s")] ++ [("p", "/p")])
        [("/s", FsNode.file "a"), ("/p", FsNode.file "b")] =
      restoreAll 7 [(["s", "x", "y"], "c1"), (["p", "f"], "c2")]
        [("s", "/s")] [("/s", FsNode.file "a"), ("/p", FsNode.file "b")] := by
  exact c4_abort_semantics.1 7 _ _ _ _ "NotADirectoryError" (by decide)

/-- Counterexample to C4 as stated: the settings location raises
NotADirectoryError, and the snippets location — which would restore fine —
is never attempted: nothing is reported restored, the snippets live path
still holds its old content, and the exception escapes the whole
operation. -/
theorem c4_counterexample :
    (restore_from_backup 7 (some [(["s", "x", "y"], "c1"), (["p", "f"], "c2")])
        [("s", "/s"), ("p", "/p")]
        [("/s", FsNode.file "a"), ("/p", FsNode.file "b")]).restored = [] ∧
    fsFind (restore_from_backup 7 (some [(["s", "x", "y"], "c1"), (["p", "f"], "c2")])
        [("s", "/s"), ("p", "/p")]
        [("/s", FsNode.file "a"), ("/p", FsNode.file "b")]).fs "/p" =
      some (FsNode.file "b") ∧
    (restore_from_backup 7 (some [(["s", "x", "y"], "c1"), (["p", "f"], "c2")])
        [("s", "/s"), ("p", "/p")]
        [("/s", FsNode.file "a"), ("/p", FsNode.file "b")]).error =
      some "NotADirectoryError" := by
  exact ⟨rfl, rfl, rfl⟩

/-- The delete loop deletes exactly the records before the first failing
one, and reports whether any delete failed. -/
theorem deleteLoop_eq (fails : Nat → Bool) (l : List BackupRecord) :
    deleteLoop fails l =
      (l.takeWhile (fun f => !(fails f.id)), l.any (fun f => fails f.id)) := by
  induction l with
  | nil => rfl
  | cons f rest ih =>
    by_cases h : fails f.id
    · simp [deleteLoop, h, List.takeWhile_cons, List.any_cons]
    · simp [deleteLoop, h, List.takeWhile_cons, List.any_cons, ih]

/-- C5 (amended): deletes inside a pruning pass are not independent.  The
pass deletes the over-limit records only up to (not including) the first
failing delete, the failure is caught and logged at the pass level (the
pass itself never raises), and every over-limit record from the failing
one onward is left undeleted. -/
theorem c5_prune_abort (files : List BackupRecord) (maxB : Nat) (fails : Nat → Bool)
    (hlen : files.length > maxB) :
    cleanup_old_backups_f files maxB fails =
      ((files.drop maxB).takeWhile (fun f => !(fails f.id)),
       (files.drop maxB).any (fun f => fails f.id)) := by
  unfold cleanup_old_backups_f
  rw [if_pos hlen]
  exact deleteLoop_eq fails (files.drop maxB)

/-- Witness for C5 (amended) on a four-record listing with maxBackups 1
where the second over-limit delete fails. -/
theorem c5_prune_abort_w :
    cleanup_old_backups_f
        [BackupRecord.mk 1 "cursor_backup_4" 40, BackupRecord.mk 2 "cursor_backup_3" 30,
         BackupRecord.mk 3 "cursor_backup_2" 20, BackupRecord.mk 4 "cursor_backup_1" 10]
        1 (fun i => i == 3) =
      (([BackupRecord.mk 2 "cursor_backup_3" 30, BackupRecord.mk 3 "cursor_backup_2" 20,
         BackupRecord.mk 4 "cursor_backup_1" 10].takeWhile (fun f => !(f.id == 3))),
       ([BackupRecord.mk 2 "cursor_backup_3" 30, BackupRecord.mk 3 "cursor_backup_2" 20,
         BackupRecord.mk 4 "cursor_backup_1" 10].any (fun f => f.id == 3))) := by
  exact c5_prune_abort _ 1 _ (by decide)

/-- Counterexample to C5 as stated: three records, maxBackups 1; the
delete of record 2 fails, and record 3 — old enough to be deleted and
deletable — is not deleted (no record is), because the exception aborts
the loop. -/
theorem c5_counterexample :
    cleanup_old_backups_f
        [BackupRecord.mk 1 "cursor_backup_3" 30, BackupRecord.mk 2 "cursor_backup_2" 20,
         BackupRecord.mk 3 "cursor_backup_1" 10]
        1 (fun i => i == 2) = ([], true) := by
  decide

/-- Association-list lookup on a cons cell. -/
theorem lookupPath_cons (k0 v : String) (rest : List (String × String)) (k : String) :
    lookupPath ((k0, v) :: rest) k = if k0 = k then some v else lookupPath rest k := by
  by_cases h : k0 = k
  · simp [lookupPath, List.find?_cons, h]
  · simp [lookupPath, List.find?_cons, h]

/-- A well-known key that the override map supplies with a non-empty
path resolves, in the custom_paths dictionary, to the expanded override
path. -/
theorem lookup_customPathsOver_of_mem (paths : List (String × String)) (home : String)
    (keys : List String) (hnd : keys.Nodup) (k p : String)
    (hk : k ∈ keys) (hp : lookupPath paths k = some p) (hne : p ≠ "") :
    lookupPath (customPathsOver paths home keys) k = some (expanduser home p) := by
  induction keys with
  | nil => simp at hk
  | cons k0 ks ih =>
    rcases List.mem_cons.mp hk with heq | hmem
    · subst heq
      simp only [customPathsOver, List.filterMap_cons, hp, if_neg hne]
      rw [lookupPath_cons, if_pos rfl]
    · have hk0 : k0 ≠ k := by
        intro h
        subst h
        exact (List.nodup_cons.mp hnd).1 hmem
      have ihr := ih (List.nodup_cons.mp hnd).2 hmem
      simp only [customPathsOver, List.filterMap_cons] at ihr ⊢
      cases h0 : lookupPath paths k0 with
      | none => exact ihr
      | some p0 =>
        dsimp only
        by_cases h00 : p0 = ""
        · rw [if_pos h00]
          exact ihr
        · rw [if_neg h00]
          dsimp only
          rw [lookupPath_cons, if_neg hk0]
          exact ihr

/-- A key the override map does not supply is absent from the
custom_paths dictionary. -/
theorem lookup_customPathsOver_of_none (paths : List (String × String)) (home : String)
    (keys : List String) (k : String) (hk : lookupPath paths k = none) :
    lookupPath (customPathsOver paths home keys) k = none := by
  induction keys with
  | nil => rfl
  | cons k0 ks ih =>
    simp only [customPathsOver, List.filterMap_cons] at ih ⊢
    cases h0 : lookupPath paths k0 with
    | none => exact ih
    | some p0 =>
      dsimp only
      by_cases h00 : p0 = ""
      · rw [if_pos h00]
        exact ih
      · have hk0 : k0 ≠ k := by
          intro h
          subst h
          rw [hk] at h0
          exact Option.noConfusion h0
        rw [if_neg h00]
        dsimp only
        rw [lookupPath_cons, if_neg hk0]
        exact ih

/-- C6 (amended): with overrides enabled and at least one of the five
names supplied, path resolution returns exactly the custom_paths
dictionary: each supplied name maps to its (expanded) override path, and
every name the override map does not supply is absent from the result —
it does not fall back to the platform default. -/
theorem c6_override_exact (cfg : CursorPathsConfig) (system home : String)
    (hen : cfg.custom_enabled = true)
    (hne : customPaths cfg home ≠ []) :
    get_cursor_config_paths (some cfg) system home = Except.ok (customPaths cfg home) ∧
    (∀ k p, k ∈ pathKeys → lookupPath cfg.paths k = some p → p ≠ "" →
      lookupPath (customPaths cfg home) k = some (expanduser home p)) ∧
    (∀ k, lookupPath cfg.paths k = none → lookupPath (customPaths cfg home) k = none) := by
  refine ⟨?_, ?_, ?_⟩
  · simp [get_cursor_config_paths, hen, hne]
  · intro k p hk hp hne2
    exact lookup_customPathsOver_of_mem cfg.paths home pathKeys (by decide) k p hk hp hne2
  · intro k hk
    exact lookup_customPathsOver_of_none cfg.paths home pathKeys k hk

/-- Witness for C6 (amended): overrides enabled with only the settings
name supplied. -/
theorem c6_override_exact_w :
    (CursorPathsConfig.mk true [("settings", "/x")]).custom_enabled = true ∧
    get_cursor_config_paths (some (CursorPathsConfig.mk true [("settings", "/x")]))
        "linux" "/h" =
      Except.ok (customPaths (CursorPathsConfig.mk true [("settings", "/x")]) "/h") := by
  refine ⟨by decide, ?_⟩
  exact (c6_override_exact (CursorPathsConfig.mk true [("settings", "/x")]) "linux" "/h"
    (by decide) (by decide)).1

/-- Counterexample to C6 as stated: the override map supplies only
settings, yet resolution returns a dictionary without the keybindings
key at all, instead of the platform default for it. -/
theorem c6_counterexample :
    get_cursor_config_paths (some (CursorPathsConfig.mk true [("settings", "/x")]))
        "linux" "/h" =
      Except.ok [("settings", "/x")] ∧
    lookupPath [("settings", "/x")] "keybindings" = none := by
  exact ⟨rfl, rfl⟩

/-- C8 (amended): sync_up removes the temporary archive only on the
success path; when the upload raises, the exception propagates before
os.unlink runs and the temporary archive file is left on disk. -/
theorem c8_temp_cleanup (backupPath : String) (disk : List String) :
    (∀ fileId, sync_up backupPath (Except.ok fileId) disk = (Except.ok fileId, disk)) ∧
    (∀ e, sync_up backupPath (Except.error e) disk =
      (Except.error e, backupPath :: disk)) := by
  constructor
  · intro fileId
    simp [sync_up, List.erase_cons_head]
  · intro e
    rfl

/-- Counterexample to C8 as stated: an upload failure leaves the
temporary archive on disk — it is not removed on that exit path. -/
theorem c8_counterexample :
    (sync_up "/tmp/b.zip" (Except.error "network error") []).2 = ["/tmp/b.zip"] := by
  rfl

/-- An interrupt-free schedule never stops the recurring loop: every
iteration runs, and exactly the raised exceptions are logged. -/
theorem runLoop_no_interrupt (events : List CycleEvent)
    (hni : CycleEvent.interrupt ∉ events) :
    runLoop events =
      LoopState.mk events.length false
        (events.filterMap (fun e =>
          match e with
          | CycleEvent.raised m => some ("Automatic sync error occurred: " ++ m)
          | _ => none)) := by
  induction events with
  | nil => rfl
  | cons ev rest ih =>
    have hni2 : CycleEvent.interrupt ∉ rest := fun h => hni (List.mem_cons_of_mem _ h)
    cases ev with
    | interrupt => exact absurd (List.mem_cons_self _ _) hni
    | result b => simp [runLoop, ih hni2, List.filterMap_cons]
    | raised m => simp [runLoop, ih hni2, List.filterMap_cons]

/-- C9: in recurring mode, every iteration of an interrupt-free schedule
runs to completion — failures and exceptions are caught and logged, the
loop sleeps and retries, and no cycle's failure stops the loop; moreover
sync_once converts an exception from the sync into a logged false return
rather than raising. -/
theorem c9_loop_isolation (events : List CycleEvent)
    (hni : CycleEvent.interrupt ∉ events) :
    start_auto_sync true events =
      LoopState.mk events.length false
        (events.filterMap (fun e =>
          match e with
          | CycleEvent.raised m => some ("Automatic sync error occurred: " ++ m)
          | _ => none)) ∧
    (∀ e, sync_once true (Except.ok ()) (Except.error e) = (false, "Sync failed: " ++ e)) := by
  refine ⟨?_, fun e => rfl⟩
  show runLoop events = _
  exact runLoop_no_interrupt events hni

/-- Witness for C9 on a schedule with a success, a raised exception and
a failed sync: the loop runs all three iterations and keeps going. -/
theorem c9_loop_isolation_w :
    (start_auto_sync true [CycleEvent.result true, CycleEvent.raised "boom",
        CycleEvent.result false]).iterations = 3 ∧
    (start_auto_sync true [CycleEvent.result true, CycleEvent.raised "boom",
        CycleEvent.result false]).stopped = false := by
  have h := (c9_loop_isolation [CycleEvent.result true, CycleEvent.raised "boom",
    CycleEvent.result false] (by decide)).1
  rw [h]
  exact ⟨rfl, rfl⟩

/-- A successful path lookup comes from an entry of the filesystem
association list. -/
theorem fsFind_mem (fs : Fs) (p : String) (node : FsNode) (h : fsFind fs p = some node) :
    (p, node) ∈ fs := by
  induction fs with
  | nil => simp [fsFind] at h
  | cons e rest ih =>
    obtain ⟨q, n⟩ := e
    simp only [fsFind] at h
    by_cases hq : q = p
    · rw [if_pos hq] at h
      subst hq
      injection h with h2
      subst h2
      exact List.mem_cons_self _ _
    · rw [if_neg hq] at h
      exact List.mem_cons_of_mem _ (ih h)

/-- C7: every entry the builder writes is either the single
metadata.json entry or has internal path name/rest for some registered
location name with a non-empty remainder; given that location names are
non-empty and do not begin with a slash (true of the five well-known
names), no entry path is absolute — the joined path begins with the
location name, not with a path separator. -/
theorem c7_archive_paths (locs : List (String × String)) (fs : Fs) (meta : String)
    (e : ArchiveEntry) (he : e ∈ create_backup_archive locs fs meta)
    (hnames : ∀ le ∈ locs, (le : String × String).1 ≠ "" ∧ le.1.data.head? ≠ some '/')
    (hwf : ∀ fe ∈ fs, ∀ de ∈ fsNodeFiles (fe : String × FsNode).2,
      (de : List String × String).1 ≠ []) :
    e.1 = ["metadata.json"] ∨
    ∃ n p rest, (n, p) ∈ locs ∧ e.1 = n :: rest ∧ rest ≠ [] ∧
      n ≠ "" ∧ n.data.head? ≠ some '/' := by
  unfold create_backup_archive at he
  rcases List.mem_append.mp he with hl | hr
  · rcases List.mem_flatMap.mp hl with ⟨lp, hlp, hin⟩
    obtain ⟨n, p⟩ := lp
    right
    obtain ⟨hn1, hn2⟩ := hnames (n, p) hlp
    cases hf : fsFind fs p with
    | none =>
      rw [hf] at hin
      simp at hin
    | some node =>
      cases node with
      | file c =>
        rw [hf] at hin
        simp only [List.mem_singleton] at hin
        subst hin
        exact ⟨n, p, [basename p], hlp, rfl, by simp, hn1, hn2⟩
      | dir files =>
        rw [hf] at hin
        rcases List.mem_map.mp hin with ⟨de, hde, heq⟩
        have hrne : de.1 ≠ [] :=
          hwf (p, FsNode.dir files) (fsFind_mem fs p _ hf) de hde
        subst heq
        exact ⟨n, p, de.1, hlp, rfl, hrne, hn1, hn2⟩
  · left
    simp only [List.mem_singleton] at hr
    subst hr
    rfl

/-- Witness for C7 on a one-directory-location archive, at its first
entry. -/
theorem c7_archive_paths_w :
    ((["s", "a.json"], "x") : ArchiveEntry).1 = ["metadata.json"] ∨
    ∃ n p rest, (n, p) ∈ [("s", "/d")] ∧
      ((["s", "a.json"], "x") : ArchiveEntry).1 = n :: rest ∧ rest ≠ [] ∧
      n ≠ "" ∧ n.data.head? ≠ some '/' := by
  refine c7_archive_paths [("s", "/d")] [("/d", FsNode.dir [(["a.json"], "x")])] "m"
    (["s", "a.json"], "x") ?_ ?_ ?_
  · decide
  · decide
  · decide
